import Mathlib

/-!
Verification of the audio-capture core of the Meeting-Translator repository
(`src/components/AudioRecorder.tsx`, current revision): the mime-type
negotiator, the recording state machine (start / pause / resume / stop),
chunk buffering via the `ondataavailable` and `onstop` recorder events,
the per-second duration timer, and the file-import fallback.

The component is embedded shallowly: the React refs and `useState` cells
become fields of `RecorderComponent`; each handler function of the source
becomes a pure state-transformer; the host runtime's event dispatch
(MediaRecorder event ordering, the interval timer) is modelled by guard
conditions on environment steps, following the MediaRecorder contract the
code relies on: `stop()` moves the recorder to `inactive` and queues one
final `dataavailable` flush followed by one `stop` event, and periodic
`dataavailable` events fire only while the recorder is in the `recording`
state.
-/

namespace MeetingTranslator

/-- An encoded audio segment (a `Blob` delivered in a `dataavailable` event):
its payload bytes. -/
structure Chunk where
  data : List Nat
deriving DecidableEq, Repr

/-- `e.data.size` of the delivered blob. -/
def Chunk.size (c : Chunk) : Nat := c.data.length

/-- The value handed to `onRecordingComplete`: a blob with its bytes and its
declared mime type. `new Blob(parts, \x7btype\x7d)` concatenates the parts'
bytes in order. -/
structure FinalizedAudio where
  bytes : List Nat
  mimeType : String
deriving DecidableEq, Repr

/-- The state of the underlying `MediaRecorder` object. -/
inductive RecState
  | recording
  | paused
  | inactive
deriving DecidableEq, Repr

/-- The `MediaRecorder` instance held in `mediaRecorderRef`, together with
the host-runtime event queue implied by its contract: after `stop()` one
final `dataavailable` flush (`pendingData`) and one `stop` event
(`pendingStop`) are queued, in that order. -/
structure Recorder where
  recState : RecState
  pendingData : Bool
  pendingStop : Bool
deriving DecidableEq, Repr

/-- The component's state: the `useState` cells (`isRecording`, `isPaused`,
`duration`, `error`) and the refs (`mediaRecorderRef`, `timerRef`,
`chunksRef`, `mimeTypeRef`), plus the observable effects: the visualizer
animation loop, whether the acquired stream's tracks have been stopped, and
the list of blobs passed to `onRecordingComplete`, in call order. -/
structure RecorderComponent where
  isRecording : Bool
  isPaused : Bool
  duration : Nat
  error : Option String
  recorder : Option Recorder
  timerActive : Bool
  chunks : List Chunk
  mimeType : String
  visualizerRunning : Bool
  streamTracksStopped : Bool
  delivered : List FinalizedAudio
deriving DecidableEq, Repr

/-- The component's initial state: refs null, `mimeTypeRef` initialised to
`audio/webm`, nothing recorded or delivered. -/
def initState : RecorderComponent :=
  { isRecording := false
    isPaused := false
    duration := 0
    error := none
    recorder := none
    timerActive := false
    chunks := []
    mimeType := "audio/webm"
    visualizerRunning := false
    streamTracksStopped := true
    delivered := [] }

/-- The fixed preference-ordered candidate list of `getSupportedMimeType`. -/
def mimeCandidates : List String :=
  ["audio/webm;codecs=opus", "audio/webm", "audio/mp4", "audio/wav"]

/-- `getSupportedMimeType`, parametrised by the runtime support predicate
`MediaRecorder.isTypeSupported`: the first candidate the predicate accepts,
else the literal fallback `audio/webm`. -/
def getSupportedMimeType (isTypeSupported : String → Bool) : String :=
  match mimeCandidates.find? isTypeSupported with
  | some t => t
  | none => "audio/webm"

/-- The user-visible message set when microphone access is denied. -/
def micDeniedMsg : String :=
  "မိုက်ခရိုဖုန်း အသုံးပြုခွင့် မရရှိပါ။ (Microphone access denied)"

/-- The user-visible message set when an uploaded file exceeds the ceiling. -/
def fileTooLargeMsg : String :=
  "ဖိုင်အရွယ်အစား ကြီးလွန်းပါသည် (Max 20MB)"

/-- The environment's resolution of one `startRecording` call: either
`getUserMedia` rejects (permission denied), or it resolves and the run is
determined by the runtime's `isTypeSupported` predicate, whether
`new MediaRecorder(stream, options)` succeeds (`ctorOk`), and the
`mimeType` the default-constructed recorder reports on the fallback path. -/
inductive StartOutcome
  | denied
  | granted (isTypeSupported : String → Bool) (ctorOk : Bool) (defaultMime : String)

/-- The `startRecording` handler, run to completion under outcome `o`.
On denial only `setError(null)`, `setIsPaused(false)` and the catch block's
`setError(message)` have run. On success: visualizer started, mime type
negotiated and stored in `mimeTypeRef` (overwritten with the default
recorder's reported type when construction with explicit options throws),
fresh recorder stored, `chunksRef` cleared, recording started with a 1000 ms
timeslice, `duration` reset, and the per-second timer registered. -/
def startRecording (o : StartOutcome) (s : RecorderComponent) : RecorderComponent :=
  match o with
  | .denied =>
      { s with isPaused := false, error := some micDeniedMsg }
  | .granted isTypeSupported ctorOk defaultMime =>
      { s with
        error := none
        isPaused := false
        visualizerRunning := true
        streamTracksStopped := false
        mimeType := if ctorOk then getSupportedMimeType isTypeSupported else defaultMime
        recorder := some { recState := RecState.recording
                           pendingData := false
                           pendingStop := false }
        chunks := []
        isRecording := true
        duration := 0
        timerActive := true }

/-- The `pauseRecording` handler: guarded on `mediaRecorderRef.current`
being non-null and its state being `recording`; pauses the recorder, sets
`isPaused`, clears the interval timer. -/
def pauseRecording (s : RecorderComponent) : RecorderComponent :=
  match s.recorder with
  | some r =>
      if r.recState = RecState.recording then
        { s with recorder := some { r with recState := RecState.paused }
                 isPaused := true
                 timerActive := false }
      else s
  | none => s

/-- The `resumeRecording` handler: guarded on the recorder existing in the
`paused` state; resumes it, clears `isPaused`, re-registers the timer. -/
def resumeRecording (s : RecorderComponent) : RecorderComponent :=
  match s.recorder with
  | some r =>
      if r.recState = RecState.paused then
        { s with recorder := some { r with recState := RecState.recording }
                 isPaused := false
                 timerActive := true }
      else s
  | none => s

/-- The `stopRecording` handler: guarded on `mediaRecorderRef.current &&
(isRecording || isPaused)`. `MediaRecorder.stop()` moves a non-inactive
recorder to `inactive` and queues the final `dataavailable` flush and the
`stop` event; the handler then clears both flags and the timer. -/
def stopRecording (s : RecorderComponent) : RecorderComponent :=
  match s.recorder with
  | some r =>
      if s.isRecording = true ∨ s.isPaused = true then
        { s with
          recorder := some (if r.recState = RecState.inactive then r
                            else { recState := RecState.inactive
                                   pendingData := true
                                   pendingStop := true })
          isRecording := false
          isPaused := false
          timerActive := false }
      else s
  | none => s

/-- The `ondataavailable` handler body: push `e.data` onto `chunksRef` when
`e.data.size > 0`, otherwise do nothing. -/
def ondataavailable (e : Chunk) (s : RecorderComponent) : RecorderComponent :=
  if e.size > 0 then { s with chunks := s.chunks ++ [e] } else s

/-- Runtime dispatch of a `dataavailable` event: such an event fires only
while the recorder is in the `recording` state (periodic timeslice
delivery) or as the single flush queued by `stop()`; firing consumes a
queued flush, then the `ondataavailable` handler runs. -/
def dataAvailableEvent (e : Chunk) (s : RecorderComponent) : RecorderComponent :=
  match s.recorder with
  | some r =>
      if r.recState = RecState.recording ∨ r.pendingData = true then
        ondataavailable e { s with recorder := some { r with pendingData := false } }
      else s
  | none => s

/-- The `onstop` handler body: build `new Blob(chunksRef.current,
\x7btype: mimeTypeRef.current\x7d)`, pass it to `onRecordingComplete`, stop
every track of the stream, cancel the visualizer's animation loop and clear
its canvas. -/
def onstop (s : RecorderComponent) : RecorderComponent :=
  { s with
    delivered := s.delivered ++ [{ bytes := (s.chunks.map Chunk.data).flatten
                                   mimeType := s.mimeType }]
    streamTracksStopped := true
    visualizerRunning := false }

/-- Runtime dispatch of the recorder's `stop` event: it fires only when
queued by `stop()`, after the queued `dataavailable` flush has fired;
firing consumes the queued event, then the `onstop` handler runs. -/
def stopEvent (s : RecorderComponent) : RecorderComponent :=
  match s.recorder with
  | some r =>
      if r.pendingStop = true ∧ r.pendingData = false then
        onstop { s with recorder := some { r with pendingStop := false } }
      else s
  | none => s

/-- One firing of the per-second interval timer callback
(`setDuration(prev => prev + 1)`); fires only while the interval is
registered. -/
def timerTick (s : RecorderComponent) : RecorderComponent :=
  if s.timerActive then { s with duration := s.duration + 1 } else s

/-- A file chosen in the upload input: its bytes and declared type. -/
structure UploadedFile where
  bytes : List Nat
  declaredType : String
deriving DecidableEq, Repr

/-- `file.size` in bytes. -/
def UploadedFile.size (f : UploadedFile) : Nat := f.bytes.length

/-- The upload ceiling of `handleFileUpload`: `20 * 1024 * 1024` bytes. -/
def maxUploadBytes : Nat := 20 * 1024 * 1024

/-- The `handleFileUpload` handler: with no file selected it does nothing;
a file larger than the ceiling only sets the size-limit error; otherwise
the file itself is passed to `onRecordingComplete`. -/
def handleFileUpload (choice : Option UploadedFile) (s : RecorderComponent) :
    RecorderComponent :=
  match choice with
  | none => s
  | some f =>
      if f.size > maxUploadBytes then
        { s with error := some fileTooLargeMsg }
      else
        { s with delivered := s.delivered ++ [{ bytes := f.bytes
                                                mimeType := f.declaredType }] }

/-- One step of the component: a user-interface handler invocation or an
environment event (timer tick, recorder event). -/
inductive Action
  | start (o : StartOutcome)
  | pause
  | resume
  | stop
  | tick
  | deliver (e : Chunk)
  | finalize
  | upload (choice : Option UploadedFile)

/-- The step function dispatching actions to the handlers above. -/
def step : Action → RecorderComponent → RecorderComponent
  | .start o, s => startRecording o s
  | .pause, s => pauseRecording s
  | .resume, s => resumeRecording s
  | .stop, s => stopRecording s
  | .tick, s => timerTick s
  | .deliver e, s => dataAvailableEvent e s
  | .finalize, s => stopEvent s
  | .upload c, s => handleFileUpload c s

/-- Run a sequence of actions from a state. -/
def run (as : List Action) (s : RecorderComponent) : RecorderComponent :=
  as.foldl (fun t a => step a t) s

/-- Which user actions the rendered interface can emit in a state: the mic
button calls `startRecording` only while not recording (otherwise it calls
`stopRecording`), and the pause/resume button exists only while recording.
Environment events are always possible (their dispatch is guarded). -/
def validAction (s : RecorderComponent) : Action → Prop
  | .start _ => s.isRecording = false
  | .pause => s.isRecording = true ∧ s.isPaused = false
  | .resume => s.isRecording = true ∧ s.isPaused = true
  | .stop => s.isRecording = true
  | _ => True

/-- Consistency of the component's flags with the recorder and timer,
maintained by every interface-valid step: the timer runs only while
recording un-paused, `isPaused` implies `isRecording`, a paused recorder
coincides with `isPaused`, and a non-inactive recorder implies
`isRecording`. -/
def Inv (s : RecorderComponent) : Prop :=
  (s.timerActive = true → s.isRecording = true ∧ s.isPaused = false) ∧
  (s.isPaused = true → s.isRecording = true) ∧
  (∀ r, s.recorder = some r → r.recState = RecState.paused → s.isPaused = true) ∧
  (∀ r, s.recorder = some r → r.recState ≠ RecState.inactive → s.isRecording = true)

/-- The session's finalization has completed (or no session ever ran): the
component is not recording and the recorder, if any, is inactive with no
queued events. -/
def finalizationDone (s : RecorderComponent) : Prop :=
  s.isRecording = false ∧ s.isPaused = false ∧
  ∀ r, s.recorder = some r →
    r.recState = RecState.inactive ∧ r.pendingData = false ∧ r.pendingStop = false

/-- A concrete mid-session state: recording, three seconds in, one chunk
buffered. -/
def recordingState : RecorderComponent :=
  { isRecording := true
    isPaused := false
    duration := 3
    error := none
    recorder := some { recState := RecState.recording
                       pendingData := false
                       pendingStop := false }
    timerActive := true
    chunks := [{ data := [1, 2] }]
    mimeType := "audio/webm;codecs=opus"
    visualizerRunning := true
    streamTracksStopped := false
    delivered := [] }

/-- The call sequence of the spec's timing scenario: start, three timer
ticks (with per-second chunk deliveries), pause, two ticks while paused,
resume, two more ticks, stop, then the recorder's queued flush and stop
event. -/
def scenarioActions : List Action :=
  [Action.start (StartOutcome.granted (fun _ => true) true "audio/webm"),
   Action.tick, Action.deliver { data := [1] },
   Action.tick, Action.deliver { data := [2] },
   Action.tick, Action.deliver { data := [3] },
   Action.pause,
   Action.tick, Action.tick,
   Action.resume,
   Action.tick, Action.deliver { data := [4] },
   Action.tick, Action.deliver { data := [5] },
   Action.stop,
   Action.deliver { data := [6] },
   Action.finalize]

/-- A small concrete upload, well under the 20 MB ceiling. -/
def smallUpload : UploadedFile :=
  { bytes := [5, 6, 7], declaredType := "audio/mp4" }

/-- A concrete oversized upload: 21 MiB of zero bytes. -/
def bigUpload : UploadedFile :=
  { bytes := List.replicate (21 * 1024 * 1024) 0, declaredType := "audio/mp4" }

end MeetingTranslator

namespace MeetingTranslator

/-- Generic first-match fact: if `l[i]` satisfies `p` and no earlier entry
does, then `find?` returns `l[i]`. -/
theorem find?_of_first {α : Type} (p : α → Bool) :
    ∀ (l : List α) (i : Nat) (hi : i < l.length),
      p l[i] = true → (∀ j (hj : j < i), p (l.get ⟨j, Nat.lt_trans hj hi⟩) = false) →
      l.find? p = some l[i]
  | a :: l, 0, _, hp, _ => by
      have ha : p a = true := by simpa using hp
      simp [List.find?, ha]
  | a :: l, i + 1, hi, hp, hfirst => by
      have ha : p a = false := hfirst 0 (Nat.succ_pos i)
      have ih := find?_of_first p l i (Nat.lt_of_succ_lt_succ hi)
        (by simpa using hp)
        (fun j hj => by
          have := hfirst (j + 1) (Nat.succ_lt_succ hj)
          simpa using this)
      simp [List.find?, ha, ih]

/-- C1, counterexample: with a support predicate that rejects every
candidate, `getSupportedMimeType` returns `audio/webm`, which is not the
last entry (`audio/wav`) of the candidate list, contradicting the claim
that the fallback is the list's last entry. -/
theorem C1_counterexample :
    getSupportedMimeType (fun _ => false) = "audio/webm" ∧
    mimeCandidates.getLast? = some "audio/wav" ∧
    ("audio/webm" : String) ≠ "audio/wav" := by
  refine ⟨rfl, rfl, by decide⟩

/-- C1, amended: `getSupportedMimeType` returns the first candidate of its
fixed preference-ordered list accepted by the support predicate, and when
the predicate rejects every candidate it returns the constant fallback
`"audio/webm"` (the list's second entry, not its last); it is total, so it
never throws and always returns a value. -/
theorem C1_amended_mime_fallback (p : String → Bool) :
    ((∀ t ∈ mimeCandidates, p t = false) → getSupportedMimeType p = "audio/webm") ∧
    (∀ i (hi : i < mimeCandidates.length),
      p mimeCandidates[i] = true →
      (∀ j (hj : j < i), p (mimeCandidates.get ⟨j, Nat.lt_trans hj hi⟩) = false) →
      getSupportedMimeType p = mimeCandidates[i]) := by
  constructor
  · intro hall
    have hnone : mimeCandidates.find? p = none := by
      rw [List.find?_eq_none]
      intro x hx
      simp [hall x hx]
    simp [getSupportedMimeType, hnone]
  · intro i hi hp hfirst
    have := find?_of_first p mimeCandidates i hi hp hfirst
    simp [getSupportedMimeType, this]

/-- C1 witness: with a predicate supporting only `audio/mp4`, the negotiator
returns `audio/mp4` (the first and only supported candidate). -/
theorem C1_amended_mime_fallback_witness :
    getSupportedMimeType (fun t => t == "audio/mp4") = "audio/mp4" := by
  have h := (C1_amended_mime_fallback (fun t => t == "audio/mp4")).2 2
    (by decide) (by decide) (by decide)
  simpa using h

/-- Once a session's finalization has completed, any single step other than
starting a new session leaves `chunks` unchanged and finalization stays
completed. -/
theorem step_nonstart_finalized (s : RecorderComponent) (a : Action)
    (hfin : finalizationDone s) (hns : ∀ o, a ≠ Action.start o) :
    (step a s).chunks = s.chunks ∧ finalizationDone (step a s) := by
  obtain ⟨hrec, hpau, hrst⟩ := hfin
  cases a with
  | start o => exact absurd rfl (hns o)
  | pause =>
      have he : step Action.pause s = s := by
        rcases hr : s.recorder with _ | r
        · simp [step, pauseRecording, hr]
        · simp [step, pauseRecording, hr, (hrst r hr).1]
      rw [he]
      exact ⟨rfl, hrec, hpau, hrst⟩
  | resume =>
      have he : step Action.resume s = s := by
        rcases hr : s.recorder with _ | r
        · simp [step, resumeRecording, hr]
        · simp [step, resumeRecording, hr, (hrst r hr).1]
      rw [he]
      exact ⟨rfl, hrec, hpau, hrst⟩
  | stop =>
      have he : step Action.stop s = s := by
        rcases hr : s.recorder with _ | r
        · simp [step, stopRecording, hr]
        · simp [step, stopRecording, hr, hrec, hpau]
      rw [he]
      exact ⟨rfl, hrec, hpau, hrst⟩
  | tick =>
      simp only [step, timerTick]
      split
      · exact ⟨rfl, hrec, hpau, hrst⟩
      · exact ⟨rfl, hrec, hpau, hrst⟩
  | deliver e =>
      have he : step (Action.deliver e) s = s := by
        rcases hr : s.recorder with _ | r
        · simp [step, dataAvailableEvent, hr]
        · simp [step, dataAvailableEvent, hr, (hrst r hr).1, (hrst r hr).2.1]
      rw [he]
      exact ⟨rfl, hrec, hpau, hrst⟩
  | finalize =>
      have he : step Action.finalize s = s := by
        rcases hr : s.recorder with _ | r
        · simp [step, stopEvent, hr]
        · simp [step, stopEvent, hr, (hrst r hr).2.2]
      rw [he]
      exact ⟨rfl, hrec, hpau, hrst⟩
  | upload choice =>
      rcases choice with _ | f
      · exact ⟨rfl, hrec, hpau, hrst⟩
      · simp only [step, handleFileUpload]
        split
        · exact ⟨rfl, hrec, hpau, hrst⟩
        · exact ⟨rfl, hrec, hpau, hrst⟩

/-- Once finalization has completed, no start-free run of further steps
changes `chunks`. -/
theorem run_nonstart_finalized (as : List Action) (s : RecorderComponent)
    (hfin : finalizationDone s) (hns : ∀ a ∈ as, ∀ o, a ≠ Action.start o) :
    (run as s).chunks = s.chunks := by
  induction as generalizing s with
  | nil => rfl
  | cons a as ih =>
      obtain ⟨h1, h2⟩ := step_nonstart_finalized s a hfin
        (hns a (List.mem_cons_self a as))
      have : run (a :: as) s = run as (step a s) := rfl
      rw [this, ih (step a s) h2 (fun b hb => hns b (List.mem_cons_of_mem a hb)), h1]

/-- C2: after a session's finalization has started and completed its state
update, no subsequent start-free step ever appends to `chunks` (a
late-firing chunk-delivery event is discarded by the dispatch guard); a
delivered empty segment is never appended; and before finalization — while
the recorder is recording, or delivering the flush queued by `stop()` —
every delivered segment of positive size is appended at the end of
`chunks`, preserving arrival order. -/
theorem C2_chunks_discipline (s : RecorderComponent) (e : Chunk) (as : List Action) :
    (finalizationDone s → (∀ a ∈ as, ∀ o, a ≠ Action.start o) →
      (run as s).chunks = s.chunks) ∧
    (e.size = 0 → (dataAvailableEvent e s).chunks = s.chunks) ∧
    (∀ r, s.recorder = some r →
      (r.recState = RecState.recording ∨ r.pendingData = true) →
      0 < e.size →
      (dataAvailableEvent e s).chunks = s.chunks ++ [e]) := by
  refine ⟨fun hfin hns => run_nonstart_finalized as s hfin hns, ?_, ?_⟩
  · intro h0
    rcases hr : s.recorder with _ | r
    · simp [dataAvailableEvent, hr]
    · simp only [dataAvailableEvent, ondataavailable, hr, h0]
      split <;> rfl
  · intro r hr hg hsz
    simp [dataAvailableEvent, ondataavailable, hr, hg, hsz]

/-- C2 witness: from the finalized initial state, a tick, a late chunk
delivery and a stop event leave `chunks` unchanged; from the live recording
state, a positive-size delivery is appended at the end of `chunks`. -/
theorem C2_chunks_discipline_witness :
    (run [Action.tick, Action.deliver { data := [7] }, Action.finalize]
        initState).chunks = initState.chunks ∧
    (dataAvailableEvent { data := [7] } recordingState).chunks =
      recordingState.chunks ++ [{ data := [7] }] := by
  have h1 := C2_chunks_discipline initState { data := [7] }
    [Action.tick, Action.deliver { data := [7] }, Action.finalize]
  have h2 := C2_chunks_discipline recordingState { data := [7] } []
  refine ⟨h1.1 (by simp [finalizationDone, initState]) ?_,
    h2.2.2 { recState := RecState.recording
             pendingData := false
             pendingStop := false } rfl (Or.inl rfl) (by decide)⟩
  intro a ha o
  simp only [List.mem_cons, List.not_mem_nil, or_false] at ha
  rcases ha with rfl | rfl | rfl <;> simp

/-- C3: a successful `startRecording` fixes `mimeTypeRef` for the session —
to the negotiated type, or to the default recorder's reported type when
construction with explicit options throws — and clears `chunks`, so the
type is fixed before the first chunk is appended; no step other than a new
start changes `mimeTypeRef`; and the finalized blob delivered by the stop
event is tagged with exactly `mimeTypeRef`. -/
theorem C3_mime_fixed_per_session (s : RecorderComponent) (a : Action)
    (p : String → Bool) (ctorOk : Bool) (dm : String) :
    ((startRecording (StartOutcome.granted p ctorOk dm) s).mimeType =
      (if ctorOk then getSupportedMimeType p else dm)) ∧
    ((startRecording (StartOutcome.granted p ctorOk dm) s).chunks = []) ∧
    ((∀ o, a ≠ Action.start o) → (step a s).mimeType = s.mimeType) ∧
    (∀ r, s.recorder = some r → r.pendingStop = true → r.pendingData = false →
      (stopEvent s).delivered =
        s.delivered ++ [{ bytes := (s.chunks.map Chunk.data).flatten
                          mimeType := s.mimeType }]) := by
  refine ⟨rfl, rfl, ?_, ?_⟩
  · intro hns
    cases a with
    | start o => exact absurd rfl (hns o)
    | pause =>
        rcases hr : s.recorder with _ | r
        · simp [step, pauseRecording, hr]
        · simp only [step, pauseRecording, hr]
          split <;> rfl
    | resume =>
        rcases hr : s.recorder with _ | r
        · simp [step, resumeRecording, hr]
        · simp only [step, resumeRecording, hr]
          split <;> rfl
    | stop =>
        rcases hr : s.recorder with _ | r
        · simp [step, stopRecording, hr]
        · simp only [step, stopRecording, hr]
          split <;> rfl
    | tick =>
        simp only [step, timerTick]
        split <;> rfl
    | deliver e =>
        rcases hr : s.recorder with _ | r
        · simp [step, dataAvailableEvent, hr]
        · simp only [step, dataAvailableEvent, ondataavailable, hr]
          split
          · split <;> rfl
          · rfl
    | finalize =>
        rcases hr : s.recorder with _ | r
        · simp [step, stopEvent, hr]
        · simp only [step, stopEvent, onstop, hr]
          split <;> rfl
    | upload choice =>
        rcases choice with _ | f
        · rfl
        · simp only [step, handleFileUpload]
          split <;> rfl
  · intro r hr hp hd
    simp [stopEvent, onstop, hr, hp, hd]

/-- C3 witness: starting from the initial state with every candidate
supported and a succeeding constructor fixes the mime type to the top
preference, a tick leaves the type unchanged, and the stop event tags the
blob with the session's type. -/
theorem C3_mime_fixed_per_session_witness :
    (startRecording (StartOutcome.granted (fun _ => true) true "x") initState).mimeType
        = "audio/webm;codecs=opus" ∧
    (step Action.tick recordingState).mimeType = "audio/webm;codecs=opus" ∧
    (stopEvent { recordingState with
        isRecording := false
        recorder := some { recState := RecState.inactive
                           pendingData := false
                           pendingStop := true } }).delivered =
      [{ bytes := [1, 2], mimeType := "audio/webm;codecs=opus" }] := by
  have h := C3_mime_fixed_per_session recordingState Action.tick
    (fun _ => true) true "x"
  refine ⟨by decide, ?_, ?_⟩
  · have := h.2.2.1 (fun o => by simp)
    simpa using this
  · have h2 := C3_mime_fixed_per_session
      { recordingState with
        isRecording := false
        recorder := some { recState := RecState.inactive
                           pendingData := false
                           pendingStop := true } }
      Action.tick (fun _ => true) true "x"
    have := h2.2.2.2 _ rfl rfl rfl
    simpa [recordingState] using this

/-- C4: `stopRecording` is idempotent — a second call is a no-op leaving the
whole component state unchanged — and for a live session one call leads, via
the recorder's queued flush and stop event, to the stream's tracks being
released and exactly one finalized blob being delivered, after which a
repeated stop event and a repeated `stopRecording` are both no-ops. -/
theorem C4_stop_idempotent (s : RecorderComponent) (e : Chunk) :
    stopRecording (stopRecording s) = stopRecording s ∧
    (∀ r, s.recorder = some r → r.recState ≠ RecState.inactive →
      (s.isRecording = true ∨ s.isPaused = true) →
      ((stopEvent (dataAvailableEvent e (stopRecording s))).delivered =
        s.delivered ++
          [{ bytes := ((if 0 < e.size then s.chunks ++ [e] else s.chunks).map
                        Chunk.data).flatten
             mimeType := s.mimeType }] ∧
      (stopEvent (dataAvailableEvent e (stopRecording s))).streamTracksStopped
          = true ∧
      stopEvent (stopEvent (dataAvailableEvent e (stopRecording s))) =
        stopEvent (dataAvailableEvent e (stopRecording s)) ∧
      stopRecording (stopEvent (dataAvailableEvent e (stopRecording s))) =
        stopEvent (dataAvailableEvent e (stopRecording s)))) := by
  constructor
  · rcases hr : s.recorder with _ | r
    · simp [stopRecording, hr]
    · by_cases hg : s.isRecording = true ∨ s.isPaused = true
      · simp [stopRecording, hr, hg]
      · simp [stopRecording, hr, hg]
  · intro r hr hne hg
    have h1 : stopRecording s =
        { s with
          recorder := some { recState := RecState.inactive
                             pendingData := true
                             pendingStop := true }
          isRecording := false
          isPaused := false
          timerActive := false } := by
      simp [stopRecording, hr, hg, hne]
    rw [h1]
    by_cases hsz : 0 < e.size
    · simp [dataAvailableEvent, ondataavailable, stopEvent, onstop, stopRecording, hsz]
    · simp [dataAvailableEvent, ondataavailable, stopEvent, onstop, stopRecording, hsz]

/-- C4 witness: from the concrete recording state, stop followed by the
flush and stop event delivers exactly one blob and releases the tracks, and
a second stop call is a no-op. -/
theorem C4_stop_idempotent_witness :
    (stopEvent (dataAvailableEvent { data := [9] } (stopRecording recordingState))).delivered =
      [{ bytes := [1, 2, 9], mimeType := "audio/webm;codecs=opus" }] ∧
    stopRecording (stopRecording recordingState) = stopRecording recordingState := by
  have h := C4_stop_idempotent recordingState { data := [9] }
  have h2 := h.2 { recState := RecState.recording
                   pendingData := false
                   pendingStop := false } rfl (by decide) (Or.inl rfl)
  exact ⟨by simpa [recordingState, Chunk.size] using h2.1, h.1⟩

/-- C8: when the recorder's queued stop event fires, the delivered blob is
exactly the in-order concatenation of the session's `chunks`, tagged with
the session's `mimeTypeRef`, and it is delivered exactly once: firing the
stop event again is a no-op. -/
theorem C8_finalized_concat (s : RecorderComponent) (r : Recorder)
    (hr : s.recorder = some r) (hp : r.pendingStop = true)
    (hd : r.pendingData = false) :
    (stopEvent s).delivered =
      s.delivered ++ [{ bytes := (s.chunks.map Chunk.data).flatten
                        mimeType := s.mimeType }] ∧
    stopEvent (stopEvent s) = stopEvent s := by
  constructor
  · simp [stopEvent, onstop, hr, hp, hd]
  · have h1 : stopEvent s =
        onstop { s with recorder := some { r with pendingStop := false } } := by
      simp [stopEvent, hr, hp, hd]
    rw [h1]
    simp [stopEvent, onstop]

/-- C8 witness: a state with two buffered chunks and a queued stop event
delivers their concatenation tagged with the session type. -/
theorem C8_finalized_concat_witness :
    (stopEvent { recordingState with
        isRecording := false
        chunks := [{ data := [1, 2] }, { data := [3] }]
        recorder := some { recState := RecState.inactive
                           pendingData := false
                           pendingStop := true } }).delivered =
      [{ bytes := [1, 2, 3], mimeType := "audio/webm;codecs=opus" }] := by
  have h := C8_finalized_concat
    { recordingState with
      isRecording := false
      chunks := [{ data := [1, 2] }, { data := [3] }]
      recorder := some { recState := RecState.inactive
                         pendingData := false
                         pendingStop := true } }
    { recState := RecState.inactive, pendingData := false, pendingStop := true }
    rfl rfl rfl
  simpa [recordingState] using h.1

/-- C9: calling `pauseRecording` when the recorder is absent or not in the
`recording` state (so in particular from Idle or while stopping) is a
complete no-op, and none of the pause, resume or stop handlers ever touches
`chunks` or, in pause's case, the duration. -/
theorem C9_pause_noop (s : RecorderComponent) :
    ((∀ r, s.recorder = some r → r.recState ≠ RecState.recording) →
      pauseRecording s = s) ∧
    (pauseRecording s).chunks = s.chunks ∧
    (resumeRecording s).chunks = s.chunks ∧
    (stopRecording s).chunks = s.chunks ∧
    (pauseRecording s).duration = s.duration := by
  refine ⟨?_, ?_, ?_, ?_, ?_⟩
  · intro h
    rcases hr : s.recorder with _ | r
    · simp [pauseRecording, hr]
    · simp [pauseRecording, hr, h r hr]
  · rcases hr : s.recorder with _ | r
    · simp [pauseRecording, hr]
    · simp only [pauseRecording, hr]
      split <;> rfl
  · rcases hr : s.recorder with _ | r
    · simp [resumeRecording, hr]
    · simp only [resumeRecording, hr]
      split <;> rfl
  · rcases hr : s.recorder with _ | r
    · simp [stopRecording, hr]
    · simp only [stopRecording, hr]
      split <;> rfl
  · rcases hr : s.recorder with _ | r
    · simp [pauseRecording, hr]
    · simp only [pauseRecording, hr]
      split <;> rfl

/-- C9 witness: pausing in the idle initial state changes nothing. -/
theorem C9_pause_noop_witness : pauseRecording initState = initState := by
  refine (C9_pause_noop initState).1 ?_
  intro r h
  simp [initState] at h

/-- C10: invoking the upload handler with no file selected is a complete
no-op: no error is set, nothing is delivered, no state changes. -/
theorem C10_upload_none (s : RecorderComponent) :
    handleFileUpload none s = s := rfl

/-- `pauseRecording` never changes the duration counter. -/
theorem pauseRecording_duration (s : RecorderComponent) :
    (pauseRecording s).duration = s.duration := by
  rcases hr : s.recorder with _ | r
  · simp [pauseRecording, hr]
  · simp only [pauseRecording, hr]
    split <;> rfl

/-- `resumeRecording` never changes the duration counter. -/
theorem resumeRecording_duration (s : RecorderComponent) :
    (resumeRecording s).duration = s.duration := by
  rcases hr : s.recorder with _ | r
  · simp [resumeRecording, hr]
  · simp only [resumeRecording, hr]
    split <;> rfl

/-- `stopRecording` never changes the duration counter. -/
theorem stopRecording_duration (s : RecorderComponent) :
    (stopRecording s).duration = s.duration := by
  rcases hr : s.recorder with _ | r
  · simp [stopRecording, hr]
  · simp only [stopRecording, hr]
    split <;> rfl

/-- A chunk-delivery event never changes the duration counter. -/
theorem dataAvailableEvent_duration (e : Chunk) (s : RecorderComponent) :
    (dataAvailableEvent e s).duration = s.duration := by
  rcases hr : s.recorder with _ | r
  · simp [dataAvailableEvent, hr]
  · simp only [dataAvailableEvent, ondataavailable, hr]
    split
    · split <;> rfl
    · rfl

/-- The recorder's stop event never changes the duration counter. -/
theorem stopEvent_duration (s : RecorderComponent) :
    (stopEvent s).duration = s.duration := by
  rcases hr : s.recorder with _ | r
  · simp [stopEvent, hr]
  · simp only [stopEvent, onstop, hr]
    split <;> rfl

/-- The upload handler never changes the duration counter. -/
theorem handleFileUpload_duration (choice : Option UploadedFile)
    (s : RecorderComponent) :
    (handleFileUpload choice s).duration = s.duration := by
  rcases choice with _ | f
  · rfl
  · simp only [handleFileUpload]
    split <;> rfl

/-- The flag-consistency invariant is preserved by every step the rendered
interface can emit. -/
theorem Inv_preserved (s : RecorderComponent) (a : Action)
    (hInv : Inv s) (hv : validAction s a) : Inv (step a s) := by
  obtain ⟨h1, h2, h3, h4⟩ := hInv
  cases a with
  | start o =>
      have hv' : s.isRecording = false := hv
      cases o with
      | denied =>
          refine ⟨?_, ?_, ?_, ?_⟩
          · intro ht
            exact absurd (h1 ht).1 (by simp [hv'])
          · intro hp
            simp [step, startRecording] at hp
          · intro r hr hps
            exact absurd (h2 (h3 r hr hps)) (by simp [hv'])
          · intro r hr hne
            exact absurd (h4 r hr hne) (by simp [hv'])
      | granted p ok dm =>
          refine ⟨fun _ => ⟨rfl, rfl⟩, fun _ => rfl, ?_, fun _ _ _ => rfl⟩
          intro r hr hps
          injection hr with hh
          rw [← hh] at hps
          simp at hps
  | pause =>
      obtain ⟨hvr, hvp⟩ := hv
      rcases hr : s.recorder with _ | r
      · have he : step Action.pause s = s := by simp [step, pauseRecording, hr]
        rw [he]; exact ⟨h1, h2, h3, h4⟩
      · by_cases hrs : r.recState = RecState.recording
        · have he : step Action.pause s =
              { s with recorder := some { r with recState := RecState.paused }
                       isPaused := true
                       timerActive := false } := by
            simp [step, pauseRecording, hr, hrs]
          rw [he]
          exact ⟨fun ht => by simp at ht, fun _ => hvr,
            fun r' hr' hps => rfl, fun r' hr' hne => hvr⟩
        · have he : step Action.pause s = s := by
            simp [step, pauseRecording, hr, hrs]
          rw [he]; exact ⟨h1, h2, h3, h4⟩
  | resume =>
      obtain ⟨hvr, hvp⟩ := hv
      rcases hr : s.recorder with _ | r
      · have he : step Action.resume s = s := by simp [step, resumeRecording, hr]
        rw [he]; exact ⟨h1, h2, h3, h4⟩
      · by_cases hrs : r.recState = RecState.paused
        · have he : step Action.resume s =
              { s with recorder := some { r with recState := RecState.recording }
                       isPaused := false
                       timerActive := true } := by
            simp [step, resumeRecording, hr, hrs]
          rw [he]
          refine ⟨fun _ => ⟨hvr, rfl⟩, fun _ => hvr, ?_, fun r' hr' hne => hvr⟩
          intro r' hr' hps
          injection hr' with hh
          rw [← hh] at hps
          simp at hps
        · have he : step Action.resume s = s := by
            simp [step, resumeRecording, hr, hrs]
          rw [he]; exact ⟨h1, h2, h3, h4⟩
  | stop =>
      have hvr : s.isRecording = true := hv
      rcases hr : s.recorder with _ | r
      · have he : step Action.stop s = s := by simp [step, stopRecording, hr]
        rw [he]; exact ⟨h1, h2, h3, h4⟩
      · by_cases hri : r.recState = RecState.inactive
        · have he : step Action.stop s =
              { s with recorder := some r
                       isRecording := false
                       isPaused := false
                       timerActive := false } := by
            simp [step, stopRecording, hr, hvr, hri]
          rw [he]
          refine ⟨fun ht => by simp at ht, fun hp => by simp at hp, ?_, ?_⟩
          · intro r' hr' hps
            injection hr' with hh
            rw [← hh, hri] at hps
            simp at hps
          · intro r' hr' hne
            injection hr' with hh
            rw [← hh] at hne
            exact absurd hri hne
        · have he : step Action.stop s =
              { s with recorder := some { recState := RecState.inactive
                                          pendingData := true
                                          pendingStop := true }
                       isRecording := false
                       isPaused := false
                       timerActive := false } := by
            simp [step, stopRecording, hr, hvr, hri]
          rw [he]
          refine ⟨fun ht => by simp at ht, fun hp => by simp at hp, ?_, ?_⟩
          · intro r' hr' hps
            injection hr' with hh
            rw [← hh] at hps
            simp at hps
          · intro r' hr' hne
            injection hr' with hh
            rw [← hh] at hne
            simp at hne
  | tick =>
      simp only [step, timerTick]
      split
      · exact ⟨fun _ => h1 (by assumption), h2, h3, h4⟩
      · exact ⟨h1, h2, h3, h4⟩
  | deliver e =>
      rcases hr : s.recorder with _ | r
      · have he : step (Action.deliver e) s = s := by
          simp [step, dataAvailableEvent, hr]
        rw [he]; exact ⟨h1, h2, h3, h4⟩
      · by_cases hg : r.recState = RecState.recording ∨ r.pendingData = true
        · by_cases hsz : 0 < e.size
          · have he : step (Action.deliver e) s =
                { s with recorder := some { r with pendingData := false }
                         chunks := s.chunks ++ [e] } := by
              simp [step, dataAvailableEvent, ondataavailable, hr, hg, hsz]
            rw [he]
            refine ⟨h1, h2, ?_, ?_⟩
            · intro r' hr' hps
              injection hr' with hh
              rw [← hh] at hps
              exact h3 r hr hps
            · intro r' hr' hne
              injection hr' with hh
              rw [← hh] at hne
              exact h4 r hr hne
          · have he : step (Action.deliver e) s =
                { s with recorder := some { r with pendingData := false } } := by
              simp [step, dataAvailableEvent, ondataavailable, hr, hg, hsz]
            rw [he]
            refine ⟨h1, h2, ?_, ?_⟩
            · intro r' hr' hps
              injection hr' with hh
              rw [← hh] at hps
              exact h3 r hr hps
            · intro r' hr' hne
              injection hr' with hh
              rw [← hh] at hne
              exact h4 r hr hne
        · have he : step (Action.deliver e) s = s := by
            simp only [step, dataAvailableEvent, hr]
            rw [if_neg hg]
          rw [he]; exact ⟨h1, h2, h3, h4⟩
  | finalize =>
      rcases hr : s.recorder with _ | r
      · have he : step Action.finalize s = s := by simp [step, stopEvent, hr]
        rw [he]; exact ⟨h1, h2, h3, h4⟩
      · by_cases hg : r.pendingStop = true ∧ r.pendingData = false
        · have he : step Action.finalize s =
              { s with recorder := some { r with pendingStop := false }
                       delivered := s.delivered ++
                         [{ bytes := (s.chunks.map Chunk.data).flatten
                            mimeType := s.mimeType }]
                       streamTracksStopped := true
                       visualizerRunning := false } := by
            simp [step, stopEvent, onstop, hr, hg.1, hg.2]
          rw [he]
          refine ⟨h1, h2, ?_, ?_⟩
          · intro r' hr' hps
            injection hr' with hh
            rw [← hh] at hps
            exact h3 r hr hps
          · intro r' hr' hne
            injection hr' with hh
            rw [← hh] at hne
            exact h4 r hr hne
        · have he : step Action.finalize s = s := by
            simp only [step, stopEvent, hr]
            rw [if_neg hg]
          rw [he]; exact ⟨h1, h2, h3, h4⟩
  | upload choice =>
      rcases choice with _ | f
      · exact ⟨h1, h2, h3, h4⟩
      · simp only [step, handleFileUpload]
        split
        · exact ⟨h1, h2, h3, h4⟩
        · exact ⟨h1, h2, h3, h4⟩

/-- C5: under the flag-consistency invariant, any interface-valid step that
increases the duration counter happens while recording and not paused; while
paused no step changes the counter; the invariant is preserved; and the
spec's concrete scenario — start, 3 ticks, pause, 2 ticks, resume, 2 ticks,
stop — reads 5 seconds and delivers exactly one finalized blob. -/
theorem C5_duration_discipline (s : RecorderComponent) (a : Action)
    (hInv : Inv s) (hv : validAction s a) :
    (s.duration < (step a s).duration →
      s.isRecording = true ∧ s.isPaused = false) ∧
    (s.isPaused = true → (step a s).duration = s.duration) ∧
    Inv (step a s) ∧
    ((run scenarioActions initState).duration = 5 ∧
      (run scenarioActions initState).delivered.length = 1) := by
  obtain ⟨h1, h2, h3, h4⟩ := hInv
  refine ⟨?_, ?_, Inv_preserved s a ⟨h1, h2, h3, h4⟩ hv, by decide, by decide⟩
  · intro hlt
    cases a with
    | start o =>
        cases o with
        | denied => exact absurd hlt (by simp [step, startRecording])
        | granted p ok dm =>
            exact absurd hlt (by simp [step, startRecording])
    | pause => exact absurd hlt (by simp [step, pauseRecording_duration])
    | resume => exact absurd hlt (by simp [step, resumeRecording_duration])
    | stop => exact absurd hlt (by simp [step, stopRecording_duration])
    | tick =>
        by_cases ht : s.timerActive = true
        · exact h1 ht
        · exact absurd hlt (by simp [step, timerTick,
            Bool.eq_false_iff.mpr ht])
    | deliver e => exact absurd hlt (by simp [step, dataAvailableEvent_duration])
    | finalize => exact absurd hlt (by simp [step, stopEvent_duration])
    | upload choice =>
        exact absurd hlt (by simp [step, handleFileUpload_duration])
  · intro hp
    cases a with
    | start o => exact absurd (h2 hp) (by simpa using hv)
    | pause => exact pauseRecording_duration s
    | resume => exact resumeRecording_duration s
    | stop => exact stopRecording_duration s
    | tick =>
        have ht : s.timerActive = false := by
          cases hta : s.timerActive
          · rfl
          · exact absurd (h1 hta).2 (by simp [hp])
        simp [step, timerTick, ht]
    | deliver e => exact dataAvailableEvent_duration e s
    | finalize => exact stopEvent_duration s
    | upload choice => exact handleFileUpload_duration choice s

/-- C5 witness: the concrete scenario from the initial state, obtained by
applying the theorem at the initial state (whose invariant holds) with a
valid tick action. -/
theorem C5_duration_discipline_witness :
    (run scenarioActions initState).duration = 5 ∧
    (run scenarioActions initState).delivered.length = 1 := by
  have h := C5_duration_discipline initState Action.tick
    (by refine ⟨?_, ?_, ?_, ?_⟩ <;> simp [initState]) trivial
  exact h.2.2.2

/-- C6: the upload handler rejects a file strictly larger than
`20 * 1024 * 1024` bytes by only setting the size-limit error — nothing is
delivered and no other field (in particular no capture flag) changes — and
accepts a file at or below the ceiling by delivering exactly one finalized
value carrying the file's own bytes and declared type, with every other
field (in particular every capture flag) unchanged. -/
theorem C6_upload_size_gate (s : RecorderComponent) (f : UploadedFile) :
    (f.size > maxUploadBytes →
      handleFileUpload (some f) s = { s with error := some fileTooLargeMsg }) ∧
    (f.size ≤ maxUploadBytes →
      handleFileUpload (some f) s =
        { s with delivered := s.delivered ++ [{ bytes := f.bytes
                                                mimeType := f.declaredType }] }) := by
  constructor
  · intro h
    simp only [handleFileUpload]
    rw [if_pos h]
  · intro h
    simp only [handleFileUpload]
    rw [if_neg (by omega)]

/-- C6 witness: a 21 MiB upload is rejected with the size-limit message and
nothing delivered; a 3-byte upload is delivered unchanged with its declared
type, and neither touches the recording flag. -/
theorem C6_upload_size_gate_witness :
    (handleFileUpload (some bigUpload) initState).error = some fileTooLargeMsg ∧
    (handleFileUpload (some bigUpload) initState).delivered = [] ∧
    (handleFileUpload (some bigUpload) initState).isRecording = false ∧
    (handleFileUpload (some smallUpload) initState).delivered =
      [{ bytes := [5, 6, 7], mimeType := "audio/mp4" }] ∧
    (handleFileUpload (some smallUpload) initState).isRecording = false := by
  have h1 := (C6_upload_size_gate initState bigUpload).1
    (by
      show (List.replicate (21 * 1024 * 1024) (0 : Nat)).length > 20 * 1024 * 1024
      rw [List.length_replicate]
      omega)
  have h2 := (C6_upload_size_gate initState smallUpload).2
    (by simp [smallUpload, UploadedFile.size, maxUploadBytes])
  refine ⟨?_, ?_, ?_, ?_, ?_⟩
  · rw [h1]
  · rw [h1]; rfl
  · rw [h1]; rfl
  · rw [h2]; rfl
  · rw [h2]; rfl

/-- C7: when device access is denied, `startRecording` only clears the
pause flag and records the descriptive user-visible message; from the idle
initial state this leaves the session not recording, with no visualizer
running, no stream held, no chunks ever appended, no finalized audio
delivered, and no timer armed — and the step itself performs no retry. -/
theorem C7_denied_start (s : RecorderComponent) :
    startRecording StartOutcome.denied s =
      { s with isPaused := false, error := some micDeniedMsg } ∧
    (startRecording StartOutcome.denied initState).error = some micDeniedMsg ∧
    (startRecording StartOutcome.denied initState).isRecording = false ∧
    (startRecording StartOutcome.denied initState).visualizerRunning = false ∧
    (startRecording StartOutcome.denied initState).chunks = [] ∧
    (startRecording StartOutcome.denied initState).delivered = [] ∧
    (startRecording StartOutcome.denied initState).streamTracksStopped = true ∧
    (startRecording StartOutcome.denied initState).timerActive = false :=
  ⟨rfl, rfl, rfl, rfl, rfl, rfl, rfl, rfl⟩

end MeetingTranslator
